import Mathlib

/- Batteries marks the arithmetic of `Rat` irreducible; re-allow unfolding
inside this file so that concrete scenes can be evaluated by `decide`
(the kernel itself never respects reducibility attributes, so this changes
nothing about what is proved). -/
attribute [local semireducible] Rat.add Rat.sub Rat.mul Rat.inv Rat.ofScientific

/-!
Verification of the reflection/visibility engine of the Light Detective
repository (src/light-detective.js, src/reflection.js).

Embedding conventions:

* JavaScript floating-point numbers are embedded as exact rationals (ℚ); the
  engine's claims are about its ideal real-number geometry.
* `Math.sqrt` appears in the source only inside order comparisons between
  nonnegative quantities (`dist`, vector magnitudes).  Every such comparison
  is embedded by the equivalent comparison of the squared quantities
  (squaring is strictly monotone on nonnegative reals); the one place where a
  *sum* of two square roots is compared (the mirror-segment epsilon check in
  `isReflectionVisible`) is embedded by `sqrtAddGtSqrtMul`, which decides the
  comparison by squaring twice.  Each such encoding is noted at its use site.
* A mirror is identified by its index into the scene's mirror array; the
  source compares mirrors by object identity (`===`), which coincides with
  index equality since the array holds distinct object literals.
* A reflection's `parentReflection` pointer is represented by the explicit
  list of ancestor records (`ancestors`: the parent's record first, then the
  grandparent's, and so on back to a depth-1 image).  `Refl.parent`
  reconstructs the parent object; generated nodes store exactly the parent
  they were created from.
* `calculateHigherOrderReflection` recurses with `depth + 1` and stops at
  `depth > MAX_REFLECTIONS`; the embedding adds a structural `fuel` argument
  for termination.  `calculateReflections` supplies `fuel = maxRefl + 1`,
  which keeps the invariant `maxRefl + 2 ≤ fuel + depth`, so the
  `fuel = 0` branch is never the deciding one: when fuel would run out, the
  source's own `depth > MAX_REFLECTIONS` guard has already returned.
* The engine's numeric constants (`MAX_REFLECTIONS`, canvas size) are scene
  fields, matching the spec's description of them as configuration; the
  constants `BALL_RADIUS = 25` and `MIN_REFLECTION_SIZE_RATIO = 0.05` used by
  the size-ratio tests are kept as global definitions as in the source.
-/

namespace LightDetective

/-- A point `(x, y)` in canvas coordinates. -/
structure Pt where
  x : ℚ
  y : ℚ
deriving DecidableEq, Repr

/-- A mirror: centerline endpoints and the stored unit-normal components
(`mirror.x1 .. y2`, `mirror.normal.{x,y}` in the source).  The rendering-only
fields (blue/black side coordinates, thickness, width) play no role in the
engine and are omitted. -/
structure Mirror where
  x1 : ℚ
  y1 : ℚ
  x2 : ℚ
  y2 : ℚ
  nx : ℚ
  ny : ℚ
deriving DecidableEq, Repr

/-- The per-node data of a virtual image: position, radius, depth and the
index of the generating mirror (`sourceMirror`). -/
structure RNode where
  x : ℚ
  y : ℚ
  radius : ℚ
  depth : Nat
  sourceMirror : Nat
deriving DecidableEq, Repr

/-- A virtual image (the source's reflection object): its own record plus the
records of its ancestors, parent first — the explicit form of the
`parentReflection` pointer chain. -/
structure Refl where
  node : RNode
  ancestors : List RNode
deriving DecidableEq, Repr

def Refl.x (r : Refl) : ℚ := r.node.x

def Refl.y (r : Refl) : ℚ := r.node.y

def Refl.radius (r : Refl) : ℚ := r.node.radius

def Refl.depth (r : Refl) : Nat := r.node.depth

def Refl.sourceMirror (r : Refl) : Nat := r.node.sourceMirror

/-- The source's `reflection.parentReflection`: the parent virtual image, or
`none` for a first-order image. -/
def Refl.parent (r : Refl) : Option Refl :=
  match r.ancestors with
  | [] => none
  | a :: t => some ⟨a, t⟩

/-- A snapshot of the scene state read by the engine: ball, eye, mirror
array, canvas bounds (`width`, `height`) and the configured maximum
reflection depth (`MAX_REFLECTIONS`, 10 in the source). -/
structure Scene where
  ballX : ℚ
  ballY : ℚ
  ballRadius : ℚ
  eyeX : ℚ
  eyeY : ℚ
  mirrors : List Mirror
  width : ℚ
  height : ℚ
  maxRefl : Nat
deriving DecidableEq, Repr

/-- Mirror lookup by index.  The engine only ever dereferences indices of
mirrors in the array, so the default is never consulted by generated data. -/
def Scene.mirrorAt (s : Scene) (i : Nat) : Mirror :=
  s.mirrors.getD i ⟨0, 0, 0, 0, 0, 0⟩

/-- `BALL_RADIUS` (light-detective.js line 11). -/
def BALL_RADIUS : ℚ := 25

/-- `MIN_REFLECTION_SIZE_RATIO` (light-detective.js line 20). -/
def MIN_REFLECTION_SIZE_FRAC : ℚ := 0.05

/-- `dotProduct(v1, v2)` (light-detective.js lines 1066-1068). -/
def dotProduct (vx vy wx wy : ℚ) : ℚ := vx * wx + vy * wy

/-- Squared Euclidean distance.  The source's `dist`/explicit `Math.sqrt`
calls occur only inside order comparisons, which are embedded by the
corresponding comparisons of these squares (see module header). -/
def distSq (px py qx qy : ℚ) : ℚ := (qx - px) ^ 2 + (qy - py) ^ 2

/-- Denominator of the parametric line intersection
(light-detective.js line 1036). -/
def interDen (x1 y1 x2 y2 x3 y3 x4 y4 : ℚ) : ℚ :=
  (y4 - y3) * (x2 - x1) - (x4 - x3) * (y2 - y1)

/-- Parameter `ua` along the first segment (line 1044). -/
def interUa (x1 y1 x2 y2 x3 y3 x4 y4 : ℚ) : ℚ :=
  ((x4 - x3) * (y1 - y3) - (y4 - y3) * (x1 - x3)) / interDen x1 y1 x2 y2 x3 y3 x4 y4

/-- Parameter `ub` along the second segment (line 1045). -/
def interUb (x1 y1 x2 y2 x3 y3 x4 y4 : ℚ) : ℚ :=
  ((x2 - x1) * (y1 - y3) - (y2 - y1) * (x1 - x3)) / interDen x1 y1 x2 y2 x3 y3 x4 y4

/-- `lineIntersection(x1,y1,x2,y2,x3,y3,x4,y4)` (light-detective.js lines
1034-1055): parametric segment-segment intersection, `none` for parallel
lines (zero denominator) or parameters outside `[0,1]`. -/
def lineIntersection (x1 y1 x2 y2 x3 y3 x4 y4 : ℚ) : Option Pt :=
  if interDen x1 y1 x2 y2 x3 y3 x4 y4 = 0 then none
  else
    let ua := interUa x1 y1 x2 y2 x3 y3 x4 y4
    let ub := interUb x1 y1 x2 y2 x3 y3 x4 y4
    if 0 ≤ ua ∧ ua ≤ 1 ∧ 0 ≤ ub ∧ ub ≤ 1 then
      some ⟨x1 + ua * (x2 - x1), y1 + ua * (y2 - y1)⟩
    else none

/-- Decides whether `sqrt d1 + sqrt d2 > k * sqrt dm` for nonnegative
rationals `d1 d2 dm` and `k ≥ 0`, by squaring twice (all quantities involved
are nonnegative, so squaring preserves strict order):
`sqrt d1 + sqrt d2 > k * sqrt dm` iff `d1 + d2 + 2*sqrt (d1*d2) > k^2*dm`
iff `2*sqrt (d1*d2) > t` with `t := k^2*dm - d1 - d2`, iff
`t < 0 ∨ t^2 < 4*d1*d2`.  Embeds the source comparison
`dist1 + dist2 > mirrorLength * (1 + epsilon)` (light-detective.js line 690),
whose three distances are the square roots of the rational arguments. -/
def sqrtAddGtSqrtMul (d1 d2 dm k : ℚ) : Bool :=
  let t := k * k * dm - d1 - d2
  decide (t < 0) || decide (t * t < 4 * (d1 * d2))

/-- The obstruction scan appearing three times in `isReflectionVisible`
(light-detective.js lines 730-760, 774-796, 804-826): does some mirror whose
index is not in `skips` intersect the segment from `(px,py)` to `(qx,qy)` at
a point closer to `(px,py)` than `(qx,qy)` is, with the source's 1% relative
margin?  The source compares `distToBlocking < distToTarget * 0.99`; both
sides are nonnegative, so this is the comparison of the squares,
`distSqToBlocking < distSqToTarget * 0.99^2`. -/
def blockedByOther (s : Scene) (skips : List Nat) (px py qx qy : ℚ) : Bool :=
  (List.range s.mirrors.length).any fun j =>
    if j ∈ skips then false
    else
      let om := s.mirrorAt j
      match lineIntersection px py qx qy om.x1 om.y1 om.x2 om.y2 with
      | none => false
      | some bi => decide (distSq px py bi.x bi.y < distSq px py qx qy * (0.99 * 0.99))

/-- `isReflectionVisible(reflection)` (light-detective.js lines 650-831).
Checks, in source order: canvas containment of the bounding circle; existence
of an eye→reflection intersection with the generating mirror's centerline;
the epsilon check that the hit splits the mirror length (sqrt-encoded, see
`sqrtAddGtSqrtMul`); that the eye looks at the reflective (blue) side first
(`dot(normal, eyeToHit) < 0`); that the hit is closer than the reflection;
no obstruction between eye and hit; and finally the source-side scan (parent
image for `depth > 1`, else the ball).  For `depth > 1` the source
dereferences `parentReflection` unconditionally; a depth `> 1` node with no
parent (which the generator never produces) is mapped to `false` here where
the source would fault. -/
def isReflectionVisible (s : Scene) (r : Refl) : Bool :=
  if r.x - r.radius < 0 ∨ r.x + r.radius > s.width ∨
      r.y - r.radius < 0 ∨ r.y + r.radius > s.height then false
  else
    let m := s.mirrorAt r.sourceMirror
    match lineIntersection s.eyeX s.eyeY r.x r.y m.x1 m.y1 m.x2 m.y2 with
    | none => false
    | some hit =>
      if sqrtAddGtSqrtMul (distSq hit.x hit.y m.x1 m.y1) (distSq hit.x hit.y m.x2 m.y2)
          (distSq m.x1 m.y1 m.x2 m.y2) (1 + 0.001) then false
      else if dotProduct m.nx m.ny (hit.x - s.eyeX) (hit.y - s.eyeY) < 0 then
        if distSq s.eyeX s.eyeY hit.x hit.y < distSq s.eyeX s.eyeY r.x r.y then
          if blockedByOther s [r.sourceMirror] s.eyeX s.eyeY hit.x hit.y then false
          else if 1 < r.depth then
            match r.parent with
            | none => false
            | some p =>
              if blockedByOther s [r.sourceMirror, p.sourceMirror] p.x p.y hit.x hit.y then
                false
              else true
          else
            if blockedByOther s [r.sourceMirror] s.ballX s.ballY hit.x hit.y then false
            else true
        else false
      else false

/-- The signed distance of `(px,py)` from the mirror line along its stored
normal: `dotProduct(objectToMirrorVec, mirrorNormal)` (light-detective.js
lines 846-850 and 911-915). -/
def normalDist (m : Mirror) (px py : ℚ) : ℚ :=
  dotProduct (px - m.x1) (py - m.y1) m.nx m.ny

/-- The distance-based shrink factor `1 / (1 + distToMirror * 0.005)` with
`distToMirror = Math.abs(normalDistance)` (lines 856-860 and 921-925). -/
def shrinkFactor (ndist : ℚ) : ℚ := 1 / (1 + |ndist| * 0.005)

/-- The candidate virtual image a mirror produces from an object
(lines 867-875 and 932-939): position reflected across the mirror line,
radius scaled by the shrink factor. -/
def childNode (m : Mirror) (px py rad : ℚ) (depth mIdx : Nat) : RNode :=
  ⟨px - 2 * normalDist m px py * m.nx,
   py - 2 * normalDist m px py * m.ny,
   rad * shrinkFactor (normalDist m px py),
   depth, mIdx⟩

/-- The virtual-image object built by `calculateHigherOrderReflection`
(light-detective.js lines 867-875): the child node together with its parent
chain (`parentReflection: object`). -/
def childRefl (s : Scene) (mIdx : Nat) (obj : Refl) (objectRadius : ℚ)
    (depth : Nat) : Refl :=
  ⟨childNode (s.mirrorAt mIdx) obj.x obj.y objectRadius depth mIdx,
   obj.node :: obj.ancestors⟩

/-- `calculateHigherOrderReflection(mirror, object, objectRadius, depth,
allMirrors)` (light-detective.js lines 834-897), returning the list of
reflections it pushes, in push order.  `fuel` is the structural termination
token described in the module header; the source's own stopping conditions
(`depth > MAX_REFLECTIONS` first, then the size-ratio tests, the
reflective-side test, the canvas-bounds test and the visibility test, in
source order) are all present, and every call made by
`calculateReflections` satisfies `maxRefl + 2 ≤ fuel + depth`, under which
the source's `depth > MAX_REFLECTIONS` guard fires before fuel can reach
zero, so the `fuel = 0` arm is unreachable. -/
def calcHigher (s : Scene) (fuel : Nat) (mIdx : Nat) (obj : Refl)
    (objectRadius : ℚ) (depth : Nat) : List Refl :=
  match fuel with
  | 0 => []
  | Nat.succ f =>
    if s.maxRefl < depth then []
    else if objectRadius / BALL_RADIUS < MIN_REFLECTION_SIZE_FRAC then []
    else if normalDist (s.mirrorAt mIdx) obj.x obj.y ≤ 0 then []
    else if objectRadius * shrinkFactor (normalDist (s.mirrorAt mIdx) obj.x obj.y) <
        BALL_RADIUS * MIN_REFLECTION_SIZE_FRAC then []
    else if (childRefl s mIdx obj objectRadius depth).x -
          (childRefl s mIdx obj objectRadius depth).radius < 0 ∨
        (childRefl s mIdx obj objectRadius depth).x +
          (childRefl s mIdx obj objectRadius depth).radius > s.width ∨
        (childRefl s mIdx obj objectRadius depth).y -
          (childRefl s mIdx obj objectRadius depth).radius < 0 ∨
        (childRefl s mIdx obj objectRadius depth).y +
          (childRefl s mIdx obj objectRadius depth).radius > s.height then []
    else if isReflectionVisible s (childRefl s mIdx obj objectRadius depth) then
      childRefl s mIdx obj objectRadius depth ::
        ((List.range s.mirrors.length).map fun j =>
          if j = mIdx then []
          else calcHigher s f j (childRefl s mIdx obj objectRadius depth)
            (childRefl s mIdx obj objectRadius depth).radius (depth + 1)).flatten
    else []

/-- The first-order virtual image object (`virtualBall`, light-detective.js
lines 932-939): no parent. -/
def firstRefl (s : Scene) (j : Nat) : Refl :=
  ⟨childNode (s.mirrorAt j) s.ballX s.ballY s.ballRadius 1 j, []⟩

/-- The first-order candidate computed by the main loop of
`calculateReflections` for mirror index `j` (light-detective.js lines
905-952): `some` exactly when the ball is strictly on the reflective side,
the shrunk radius is large enough, the image is inside the canvas, and the
visibility test passes. -/
def firstOrderImage (s : Scene) (j : Nat) : Option Refl :=
  if normalDist (s.mirrorAt j) s.ballX s.ballY ≤ 0 then none
  else if s.ballRadius * shrinkFactor (normalDist (s.mirrorAt j) s.ballX s.ballY) <
      BALL_RADIUS * MIN_REFLECTION_SIZE_FRAC then none
  else if (firstRefl s j).x - (firstRefl s j).radius < 0 ∨
      (firstRefl s j).x + (firstRefl s j).radius > s.width ∨
      (firstRefl s j).y - (firstRefl s j).radius < 0 ∨
      (firstRefl s j).y + (firstRefl s j).radius > s.height then none
  else if isReflectionVisible s (firstRefl s j) then some (firstRefl s j)
  else none

/-- The first-order reflections, in mirror order (the pushes of the first
loop of `calculateReflections`). -/
def firstOrderList (s : Scene) : List Refl :=
  (List.range s.mirrors.length).filterMap (firstOrderImage s)

/-- `calculateReflections()` (light-detective.js lines 900-966): the
first-order loop followed by, for each first-order reflection (the source's
`processedReflections` copy), the higher-order expansion over every other
mirror; list order is the source's push order. -/
def calculateReflections (s : Scene) : List Refl :=
  let fo := firstOrderList s
  fo ++ (fo.map fun r =>
    ((List.range s.mirrors.length).map fun j =>
      if j = r.sourceMirror then []
      else calcHigher s (s.maxRefl + 1) j r r.radius 2).flatten).flatten

/-- The reflection chain walked by `traceSingleRayPath` (light-detective.js
lines 610-617): the reflection itself, then its parent, and so on back to
the depth-1 image. -/
def chainAux : List RNode → List Refl
  | [] => []
  | a :: t => ⟨a, t⟩ :: chainAux t

def Refl.chain (r : Refl) : List Refl := r :: chainAux r.ancestors

/-- The generating-mirror indices along a reflection's depth-chain,
deepest first. -/
def Refl.chainMirrors (r : Refl) : List Nat :=
  (Refl.chain r).map fun c => c.sourceMirror

/-- The loop body of `traceSingleRayPath` (lines 620-644), with the path
accumulated in reverse (the head of `rpath` is the last point pushed so
far, the source's `path[path.length - 1]`). -/
def traceGo (s : Scene) : List Pt → List Refl → List Pt
  | rpath, [] => rpath
  | rpath, c :: rest =>
    let origin := rpath.headD ⟨s.eyeX, s.eyeY⟩
    let m := s.mirrorAt c.sourceMirror
    let rpath1 :=
      match lineIntersection origin.x origin.y c.x c.y m.x1 m.y1 m.x2 m.y2 with
      | some hit => hit :: rpath
      | none => rpath
    let rpath2 : List Pt := ⟨c.x, c.y⟩ :: rpath1
    let rpath3 := if rest.isEmpty then (⟨s.ballX, s.ballY⟩ : Pt) :: rpath2 else rpath2
    traceGo s rpath3 rest

/-- `traceSingleRayPath(reflection)` (light-detective.js lines 605-647):
starts at the eye and, walking the chain from the reflection back to the
ball, pushes the mirror hit point (when the intersection exists) and the
reflection's own position for every chain element, ending with the ball. -/
def traceSingleRayPath (s : Scene) (r : Refl) : List Pt :=
  (traceGo s [⟨s.eyeX, s.eyeY⟩] (Refl.chain r)).reverse

/-- Whether every intermediate hit-point computation along the traced chain
succeeds (no parallel/degenerate intersection): the "no degeneracy" premise
of the path-length property.  Mirrors the origin threading of `traceGo`. -/
def traceAllHit (s : Scene) : Pt → List Refl → Bool
  | _, [] => true
  | origin, c :: rest =>
    let m := s.mirrorAt c.sourceMirror
    match lineIntersection origin.x origin.y c.x c.y m.x1 m.y1 m.x2 m.y2 with
    | some _ => traceAllHit s ⟨c.x, c.y⟩ rest
    | none => false

/-- The point-reflection formula used inline by `calculateReflections`
(light-detective.js lines 933-934) and `calculateHigherOrderReflection`
(lines 868-869), and described by the spec as `reflectPointAcrossLine`:
`p − 2·dot(p − p0, n)·n` with the mirror's stored normal `n` and first
endpoint `p0`. -/
def reflectPointAcrossLine (m : Mirror) (px py : ℚ) : Pt :=
  ⟨px - 2 * normalDist m px py * m.nx, py - 2 * normalDist m px py * m.ny⟩

end LightDetective

namespace RefJS

/-- A mirror as used by reflection.js: a bare centerline segment. -/
structure MirrorSeg where
  x1 : ℚ
  y1 : ℚ
  x2 : ℚ
  y2 : ℚ
deriving DecidableEq, Repr

/-- `reflectPoint(x, y, mirror)` (reflection.js lines 77-123).  The source
normalises the mirror direction and its perpendicular by `1/len` with
`len = Math.sqrt(lenSq)`; in every output and test the two `1/len` factors
pair up, so only the rational `lenSq = mvx^2 + mvy^2` appears:
`mirrorVector.mag() < 1` iff `lenSq < 1`; `projection < 0` iff
`dot(pv, mv) < 0` and `projection > mirrorLength` iff `dot(pv, mv) > lenSq`
(multiplying through by `len > 0`); and the reflected point
`p − 2·distance·normal` with `distance = dot(pv, n)`, `n = (mvy, −mvx)/len`
equals `(x − 2·dotn·mvy/lenSq, y + 2·dotn·mvx/lenSq)` with
`dotn = pvx·mvy − pvy·mvx`. -/
def reflectPoint (x y : ℚ) (m : MirrorSeg) : Option LightDetective.Pt :=
  let mvx := m.x2 - m.x1
  let mvy := m.y2 - m.y1
  let lenSq := mvx ^ 2 + mvy ^ 2
  if lenSq < 1 then none
  else
    let pvx := x - m.x1
    let pvy := y - m.y1
    let dotmv := pvx * mvx + pvy * mvy
    if dotmv < 0 ∨ lenSq < dotmv then none
    else
      let dotn := pvx * mvy - pvy * mvx
      some ⟨x - 2 * dotn * mvy / lenSq, y + 2 * dotn * mvx / lenSq⟩

end RefJS

namespace LightDetective

/-! ### Concrete scenes used as witnesses and counterexamples

In every concrete mirror below the stored normal equals the one the source
derives from the endpoints, `(-(y2-y1), x2-x1) / length`. -/

/-- A vertical mirror at `x = 550` spanning `y ∈ [0,400]`, normal `(1,0)`
(reflective side `x > 550`). -/
def mirrorA : Mirror := ⟨550, 400, 550, 0, 1, 0⟩

/-- A vertical mirror at `x = 650` spanning `y ∈ [0,400]`, normal `(-1,0)`
(reflective side `x < 650`). -/
def mirrorB : Mirror := ⟨650, 0, 650, 400, -1, 0⟩

/-- Two facing mirrors with the ball between them and the eye below: the
classic ping-pong arrangement. -/
def pingScene : Scene := ⟨600, 100, 25, 600, 450, [mirrorA, mirrorB], 1200, 800, 10⟩

/-- The depth-3 output image of `pingScene` generated via mirrors B, A, B. -/
def reflBAB : Refl :=
  ⟨⟨900, 100, 320/63, 3, 1⟩, [⟨400, 100, 80/7, 2, 0⟩, ⟨700, 100, 20, 1, 1⟩]⟩

/-- A vertical mirror at `x = 400` spanning `y ∈ [100,300]`, normal `(-1,0)`
(reflective side `x < 400`). -/
def mirrorC : Mirror := ⟨400, 100, 400, 300, -1, 0⟩

/-- A single-mirror scene with the ball strictly on the reflective side and
the eye placed so the first-order image is visible. -/
def sceneA : Scene := ⟨200, 200, 25, 200, 260, [mirrorC], 1200, 800, 10⟩

/-- The unique output image of `sceneA`: the first-order reflection of the
ball across `mirrorC`. -/
def reflA1 : Refl := ⟨⟨600, 200, 25/2, 1, 0⟩, []⟩

/-- `sceneA` with the ball moved to the non-reflective side of the mirror. -/
def wrongSideScene : Scene := ⟨600, 200, 25, 200, 260, [mirrorC], 1200, 800, 10⟩

/-- An in-bounds candidate whose sight line from the eye misses `mirrorC`
entirely (used to exercise the no-intersection rejection). -/
def strayRefl : Refl := ⟨⟨100, 100, 10, 1, 0⟩, []⟩

/-- A candidate placed partly outside the left canvas edge. -/
def oobRefl : Refl := ⟨⟨5, 300, 10, 1, 0⟩, []⟩

/-- An object on the non-reflective side of `mirrorC`. -/
def wrongSideObj : Refl := ⟨⟨600, 200, 25, 1, 0⟩, []⟩

/-! ### Theorems -/

/-- C8: `lineIntersection` returns `none` exactly when the segments are
parallel (zero determinant) or a parametric coordinate falls outside
`[0,1]`; a returned point has both parameters in `[0,1]` (boundary
inclusive) and lies on both segments at those parameters.  The function is
total — a normal `none` outcome, never an error. -/
theorem lineIntersection_characterization (x1 y1 x2 y2 x3 y3 x4 y4 : ℚ) :
    (lineIntersection x1 y1 x2 y2 x3 y3 x4 y4 = none ↔
      interDen x1 y1 x2 y2 x3 y3 x4 y4 = 0 ∨
      interUa x1 y1 x2 y2 x3 y3 x4 y4 < 0 ∨ 1 < interUa x1 y1 x2 y2 x3 y3 x4 y4 ∨
      interUb x1 y1 x2 y2 x3 y3 x4 y4 < 0 ∨ 1 < interUb x1 y1 x2 y2 x3 y3 x4 y4) ∧
    ∀ p : Pt, lineIntersection x1 y1 x2 y2 x3 y3 x4 y4 = some p →
      (0 ≤ interUa x1 y1 x2 y2 x3 y3 x4 y4 ∧ interUa x1 y1 x2 y2 x3 y3 x4 y4 ≤ 1 ∧
        0 ≤ interUb x1 y1 x2 y2 x3 y3 x4 y4 ∧ interUb x1 y1 x2 y2 x3 y3 x4 y4 ≤ 1) ∧
      p.x = x1 + interUa x1 y1 x2 y2 x3 y3 x4 y4 * (x2 - x1) ∧
      p.y = y1 + interUa x1 y1 x2 y2 x3 y3 x4 y4 * (y2 - y1) ∧
      p.x = x3 + interUb x1 y1 x2 y2 x3 y3 x4 y4 * (x4 - x3) ∧
      p.y = y3 + interUb x1 y1 x2 y2 x3 y3 x4 y4 * (y4 - y3) := by
  constructor
  · simp only [lineIntersection]
    split_ifs with h0 h1
    · simp [h0]
    · obtain ⟨ha0, ha1, hb0, hb1⟩ := h1
      refine iff_of_false (by simp) ?_
      rintro (h | h | h | h | h)
      · exact h0 h
      · linarith
      · linarith
      · linarith
      · linarith
    · refine iff_of_true rfl ?_
      by_cases ha0 : 0 ≤ interUa x1 y1 x2 y2 x3 y3 x4 y4
      · by_cases ha1 : interUa x1 y1 x2 y2 x3 y3 x4 y4 ≤ 1
        · by_cases hb0 : 0 ≤ interUb x1 y1 x2 y2 x3 y3 x4 y4
          · by_cases hb1 : interUb x1 y1 x2 y2 x3 y3 x4 y4 ≤ 1
            · exact absurd ⟨ha0, ha1, hb0, hb1⟩ h1
            · exact Or.inr (Or.inr (Or.inr (Or.inr (not_le.mp hb1))))
          · exact Or.inr (Or.inr (Or.inr (Or.inl (not_le.mp hb0))))
        · exact Or.inr (Or.inr (Or.inl (not_le.mp ha1)))
      · exact Or.inr (Or.inl (not_le.mp ha0))
  · intro p hp
    simp only [lineIntersection] at hp
    split_ifs at hp with h0 h1
    all_goals simp only [Option.some.injEq, reduceCtorEq] at hp
    · obtain ⟨ha0, ha1, hb0, hb1⟩ := h1
      subst hp
      refine ⟨⟨ha0, ha1, hb0, hb1⟩, rfl, rfl, ?_, ?_⟩
      · show x1 + interUa x1 y1 x2 y2 x3 y3 x4 y4 * (x2 - x1)
            = x3 + interUb x1 y1 x2 y2 x3 y3 x4 y4 * (x4 - x3)
        unfold interUa interUb interDen at *
        field_simp
        ring
      · show y1 + interUa x1 y1 x2 y2 x3 y3 x4 y4 * (y2 - y1)
            = y3 + interUb x1 y1 x2 y2 x3 y3 x4 y4 * (y4 - y3)
        unfold interUa interUb interDen at *
        field_simp
        ring

/-- Witness for C8 at the crossing of `(0,0)-(2,2)` and `(0,2)-(2,0)`. -/
theorem lineIntersection_characterization_witness :
    lineIntersection 0 0 2 2 0 2 2 0 = some ⟨1, 1⟩ ∧
    ((0 ≤ interUa 0 0 2 2 0 2 2 0 ∧ interUa 0 0 2 2 0 2 2 0 ≤ 1 ∧
        0 ≤ interUb 0 0 2 2 0 2 2 0 ∧ interUb 0 0 2 2 0 2 2 0 ≤ 1) ∧
      (Pt.mk 1 1).x = 0 + interUa 0 0 2 2 0 2 2 0 * (2 - 0) ∧
      (Pt.mk 1 1).y = 0 + interUa 0 0 2 2 0 2 2 0 * (2 - 0) ∧
      (Pt.mk 1 1).x = 0 + interUb 0 0 2 2 0 2 2 0 * (2 - 0) ∧
      (Pt.mk 1 1).y = 2 + interUb 0 0 2 2 0 2 2 0 * (0 - 2)) :=
  ⟨by decide, (lineIntersection_characterization 0 0 2 2 0 2 2 0).2 ⟨1, 1⟩ (by decide)⟩

/-- Counterexample for C9: `reflectPoint` does *not* return a point for
every input with a non-degenerate mirror.  For the mirror `(0,0)-(10,0)`
(length 10, comfortably above the degeneracy threshold of 1) and the input
point `(20, 5)`, whose perpendicular foot at `x = 20` lies beyond the
segment, the function returns `none`. -/
theorem reflectPoint_none_cex :
    (1 : ℚ) ≤ ((10 : ℚ) - 0) ^ 2 + ((0 : ℚ) - 0) ^ 2 ∧
    RefJS.reflectPoint 20 5 ⟨0, 0, 10, 0⟩ = none := by
  decide

/-- C9 (amended): `reflectPoint x y m` returns `none` exactly when the
mirror is shorter than 1 unit or the projection of the point onto the
mirror line falls outside the segment (`dot(pv,mv) < 0` or
`dot(pv,mv) > lenSq`, the `1/len`-scaled form of `projection < 0` or
`projection > mirrorLength`); a returned point `q` is the exact mirror
image `p − 2·d·n` of the input: the segment from input to output is
perpendicular to the mirror direction, and the two signed distances from
the mirror line (measured by the unnormalised cross product) are opposite. -/
theorem reflectPoint_spec (x y : ℚ) (m : RefJS.MirrorSeg) :
    (RefJS.reflectPoint x y m = none ↔
      (m.x2 - m.x1) ^ 2 + (m.y2 - m.y1) ^ 2 < 1 ∨
      (x - m.x1) * (m.x2 - m.x1) + (y - m.y1) * (m.y2 - m.y1) < 0 ∨
      (m.x2 - m.x1) ^ 2 + (m.y2 - m.y1) ^ 2 <
        (x - m.x1) * (m.x2 - m.x1) + (y - m.y1) * (m.y2 - m.y1)) ∧
    ∀ q : Pt, RefJS.reflectPoint x y m = some q →
      (q.x - x) * (m.x2 - m.x1) + (q.y - y) * (m.y2 - m.y1) = 0 ∧
      (q.x - m.x1) * (m.y2 - m.y1) - (q.y - m.y1) * (m.x2 - m.x1)
        = -((x - m.x1) * (m.y2 - m.y1) - (y - m.y1) * (m.x2 - m.x1)) := by
  constructor
  · simp only [RefJS.reflectPoint]
    split_ifs with h0 h1
    · simp [h0]
    · refine iff_of_true rfl ?_
      rcases h1 with h | h
      · exact Or.inr (Or.inl h)
      · exact Or.inr (Or.inr h)
    · refine iff_of_false (by simp) ?_
      rintro (h | h | h)
      · exact h0 h
      · exact h1 (Or.inl h)
      · exact h1 (Or.inr h)
  · intro q hq
    simp only [RefJS.reflectPoint] at hq
    split_ifs at hq with h0 h1
    all_goals simp only [Option.some.injEq, reduceCtorEq] at hq
    · have hpos : (0 : ℚ) < (m.x2 - m.x1) ^ 2 + (m.y2 - m.y1) ^ 2 := by
        have := not_lt.mp h0
        linarith
      subst hq
      constructor
      · show (x - 2 * ((x - m.x1) * (m.y2 - m.y1) - (y - m.y1) * (m.x2 - m.x1)) *
            (m.y2 - m.y1) / ((m.x2 - m.x1) ^ 2 + (m.y2 - m.y1) ^ 2) - x) * (m.x2 - m.x1) +
          (y + 2 * ((x - m.x1) * (m.y2 - m.y1) - (y - m.y1) * (m.x2 - m.x1)) *
            (m.x2 - m.x1) / ((m.x2 - m.x1) ^ 2 + (m.y2 - m.y1) ^ 2) - y) * (m.y2 - m.y1) = 0
        field_simp
        ring
      · show (x - 2 * ((x - m.x1) * (m.y2 - m.y1) - (y - m.y1) * (m.x2 - m.x1)) *
            (m.y2 - m.y1) / ((m.x2 - m.x1) ^ 2 + (m.y2 - m.y1) ^ 2) - m.x1) * (m.y2 - m.y1) -
          (y + 2 * ((x - m.x1) * (m.y2 - m.y1) - (y - m.y1) * (m.x2 - m.x1)) *
            (m.x2 - m.x1) / ((m.x2 - m.x1) ^ 2 + (m.y2 - m.y1) ^ 2) - m.y1) * (m.x2 - m.x1)
          = -((x - m.x1) * (m.y2 - m.y1) - (y - m.y1) * (m.x2 - m.x1))
        field_simp
        ring

/-- Witness for the amended C9 at the point `(5,3)` and mirror
`(0,0)-(10,0)`: the image `(5,-3)` is returned and satisfies the mirror
equations. -/
theorem reflectPoint_spec_witness :
    RefJS.reflectPoint 5 3 ⟨0, 0, 10, 0⟩ = some ⟨5, -3⟩ ∧
    (((5 : ℚ) - 5) * ((10 : ℚ) - 0) + ((-3 : ℚ) - 3) * ((0 : ℚ) - 0) = 0 ∧
      ((5 : ℚ) - 0) * ((0 : ℚ) - 0) - ((-3 : ℚ) - 0) * ((10 : ℚ) - 0)
        = -(((5 : ℚ) - 0) * ((0 : ℚ) - 0) - ((3 : ℚ) - 0) * ((10 : ℚ) - 0))) :=
  ⟨by decide, (reflectPoint_spec 5 3 ⟨0, 0, 10, 0⟩).2 ⟨5, -3⟩ (by decide)⟩

/-- What `firstOrderImage` guarantees about an accepted first-order image. -/
theorem firstOrderImage_spec {s : Scene} {j : Nat} {r : Refl}
    (h : firstOrderImage s j = some r) :
    r = firstRefl s j ∧ r.ancestors = [] ∧ r.depth = 1 ∧ r.sourceMirror = j ∧
    0 < normalDist (s.mirrorAt j) s.ballX s.ballY ∧
    isReflectionVisible s r = true ∧
    ¬(r.x - r.radius < 0 ∨ r.x + r.radius > s.width ∨
      r.y - r.radius < 0 ∨ r.y + r.radius > s.height) := by
  simp only [firstOrderImage] at h
  split_ifs at h with h1 h2 h3 h4
  all_goals simp only [Option.some.injEq, reduceCtorEq] at h
  subst h
  exact ⟨rfl, rfl, rfl, rfl, not_le.mp h1, h4, h3⟩

theorem mem_firstOrderList {s : Scene} {r : Refl} :
    r ∈ firstOrderList s ↔
      ∃ j, j < s.mirrors.length ∧ firstOrderImage s j = some r := by
  simp [firstOrderList, List.mem_filterMap, List.mem_range]

/-- Membership in the generator's output decomposes into the first-order
images and the higher-order expansions rooted at them (the structure of
`calculateReflections`). -/
theorem mem_calculateReflections {s : Scene} {r : Refl} :
    r ∈ calculateReflections s ↔
      r ∈ firstOrderList s ∨
      ∃ r0 ∈ firstOrderList s, ∃ j, j < s.mirrors.length ∧ j ≠ r0.sourceMirror ∧
        r ∈ calcHigher s (s.maxRefl + 1) j r0 r0.radius 2 := by
  simp only [calculateReflections, List.mem_append, List.mem_flatten, List.mem_map,
    List.mem_range]
  constructor
  · rintro (h | ⟨l, ⟨r0, hr0, rfl⟩, hl⟩)
    · exact Or.inl h
    · obtain ⟨l2, hl2, hrl2⟩ := List.mem_flatten.mp hl
      obtain ⟨j, hjr, rfl⟩ := List.mem_map.mp hl2
      have hj := List.mem_range.mp hjr
      by_cases hje : j = r0.sourceMirror
      · rw [if_pos hje] at hrl2
        exact absurd hrl2 (List.not_mem_nil r)
      · rw [if_neg hje] at hrl2
        exact Or.inr ⟨r0, hr0, j, hj, hje, hrl2⟩
  · rintro (h | ⟨r0, hr0, j, hj, hje, hr⟩)
    · exact Or.inl h
    · refine Or.inr ⟨_, ⟨r0, hr0, rfl⟩, ?_⟩
      refine List.mem_flatten.mpr
        ⟨_, List.mem_map.mpr ⟨j, List.mem_range.mpr hj, rfl⟩, ?_⟩
      rw [if_neg hje]
      exact hr

theorem chainAux_length (l : List RNode) : (chainAux l).length = l.length := by
  induction l with
  | nil => rfl
  | cons a t ih => simp [chainAux, ih]

theorem chain_childRefl (s : Scene) (mIdx : Nat) (obj : Refl) (rad : ℚ)
    (depth : Nat) :
    Refl.chain (childRefl s mIdx obj rad depth) =
      childRefl s mIdx obj rad depth :: Refl.chain obj := rfl

theorem chainMirrors_childRefl (s : Scene) (mIdx : Nat) (obj : Refl) (rad : ℚ)
    (depth : Nat) :
    Refl.chainMirrors (childRefl s mIdx obj rad depth) =
      mIdx :: Refl.chainMirrors obj := rfl

/-- The inductive invariant of `calcHigher`: provided the call excludes the
object's own generating mirror, the object's chain has no immediate mirror
repeat, and the call depth equals the object's ancestor count plus two,
every pushed reflection (a) has depth between the call depth and the
configured bound, (b) passed the visibility test, (c) passed the canvas
test, (d) has no immediate mirror repeat anywhere in its chain, (e) has
depth equal to its chain length, and (f) has every proper ancestor either in
the object's own chain or in the returned list. -/
theorem calcHigher_invariant (s : Scene) :
    ∀ fuel mIdx (obj : Refl) (rad : ℚ) (depth : Nat),
      mIdx ≠ obj.sourceMirror →
      List.Chain' Ne (Refl.chainMirrors obj) →
      obj.ancestors.length + 2 = depth →
      ∀ x ∈ calcHigher s fuel mIdx obj rad depth,
        (depth ≤ x.depth ∧ x.depth ≤ s.maxRefl) ∧
        isReflectionVisible s x = true ∧
        ¬(x.x - x.radius < 0 ∨ x.x + x.radius > s.width ∨
          x.y - x.radius < 0 ∨ x.y + x.radius > s.height) ∧
        List.Chain' Ne (Refl.chainMirrors x) ∧
        x.ancestors.length + 1 = x.depth ∧
        ∀ a ∈ (Refl.chain x).tail,
          a ∈ Refl.chain obj ∨ a ∈ calcHigher s fuel mIdx obj rad depth := by
  intro fuel
  induction fuel with
  | zero =>
    intro mIdx obj rad depth _ _ _ x hx
    simp [calcHigher] at hx
  | succ f ih =>
    intro mIdx obj rad depth h1 h2 h3 x hx
    simp only [calcHigher] at hx
    split_ifs at hx with hd hs1 hnd hs2 hb hv
    all_goals try (exact absurd hx (List.not_mem_nil x))
    have heq : calcHigher s (Nat.succ f) mIdx obj rad depth =
        childRefl s mIdx obj rad depth ::
          ((List.range s.mirrors.length).map fun j =>
            if j = mIdx then []
            else calcHigher s f j (childRefl s mIdx obj rad depth)
              (childRefl s mIdx obj rad depth).radius (depth + 1)).flatten := by
      simp only [calcHigher]
      rw [if_neg hd, if_neg hs1, if_neg hnd, if_neg hs2, if_neg hb, if_pos hv]
    have hchainc : List.Chain' Ne
        (Refl.chainMirrors (childRefl s mIdx obj rad depth)) := by
      rw [chainMirrors_childRefl]
      refine List.chain'_cons'.mpr ⟨?_, h2⟩
      intro b hb2
      have hhead : (Refl.chainMirrors obj).head? = some obj.sourceMirror := rfl
      rw [hhead] at hb2
      simp only [Option.mem_def, Option.some.injEq] at hb2
      subst hb2
      exact h1
    have hlenc : (childRefl s mIdx obj rad depth).ancestors.length + 1
        = (childRefl s mIdx obj rad depth).depth := by
      show (obj.node :: obj.ancestors).length + 1 = depth
      simp only [List.length_cons]
      omega
    rcases List.mem_cons.mp hx with rfl | hx2
    · refine ⟨⟨Nat.le_refl _, Nat.le_of_not_lt hd⟩, hv, hb, hchainc, hlenc, ?_⟩
      intro a ha
      rw [chain_childRefl] at ha
      exact Or.inl ha
    · obtain ⟨l, hl, hxl⟩ := List.mem_flatten.mp hx2
      obtain ⟨j, hjr, rfl⟩ := List.mem_map.mp hl
      have hj : j < s.mirrors.length := List.mem_range.mp hjr
      by_cases hje : j = mIdx
      · rw [if_pos hje] at hxl
        exact absurd hxl (List.not_mem_nil x)
      · rw [if_neg hje] at hxl
        have h3c : (childRefl s mIdx obj rad depth).ancestors.length + 2 = depth + 1 := by
          show (obj.node :: obj.ancestors).length + 2 = depth + 1
          simp only [List.length_cons]
          omega
        obtain ⟨⟨hxa, hxb⟩, hxv, hxbd, hxch, hxlen, hxanc⟩ :=
          ih j (childRefl s mIdx obj rad depth)
            (childRefl s mIdx obj rad depth).radius (depth + 1) hje hchainc h3c x hxl
        refine ⟨⟨Nat.le_trans (Nat.le_succ depth) hxa, hxb⟩, hxv, hxbd, hxch, hxlen, ?_⟩
        intro a ha
        rcases hxanc a ha with hin | hin
        · rw [chain_childRefl] at hin
          rcases List.mem_cons.mp hin with rfl | hin2
          · refine Or.inr ?_
            rw [heq]
            exact List.mem_cons_self _ _
          · exact Or.inl hin2
        · refine Or.inr ?_
          rw [heq]
          refine List.mem_cons_of_mem _ (List.mem_flatten.mpr ⟨_, ?_, hin⟩)
          refine List.mem_map.mpr ⟨j, hjr, ?_⟩
          rw [if_neg hje]

/-- The structural `fuel` argument of `calcHigher` is inert on every call
satisfying `maxRefl + 2 ≤ fuel + depth` (as all calls made by
`calculateReflections` do): any two sufficient fuels give the same result,
because the source's own `depth > MAX_REFLECTIONS` guard stops the recursion
first. -/
theorem calcHigher_fuel_irrelevant (s : Scene) :
    ∀ f1 f2 mIdx (obj : Refl) (rad : ℚ) (depth : Nat),
      s.maxRefl + 2 ≤ f1 + depth → s.maxRefl + 2 ≤ f2 + depth →
      calcHigher s f1 mIdx obj rad depth = calcHigher s f2 mIdx obj rad depth := by
  intro f1
  induction f1 with
  | zero =>
    intro f2 mIdx obj rad depth h1 h2
    have hd : s.maxRefl < depth := by omega
    cases f2 with
    | zero => rfl
    | succ g =>
      simp only [calcHigher]
      rw [if_pos hd]
  | succ f ih =>
    intro f2 mIdx obj rad depth h1 h2
    cases f2 with
    | zero =>
      have hd : s.maxRefl < depth := by omega
      simp only [calcHigher]
      rw [if_pos hd]
    | succ g =>
      simp only [calcHigher]
      by_cases hd : s.maxRefl < depth
      · rw [if_pos hd, if_pos hd]
      · rw [if_neg hd, if_neg hd]
        split_ifs
        all_goals try rfl
        congr 1
        refine congrArg List.flatten (List.map_congr_left ?_)
        intro j _
        by_cases hje : j = mIdx
        · rw [if_pos hje, if_pos hje]
        · rw [if_neg hje, if_neg hje]
          exact ih g j _ _ (depth + 1) (by omega) (by omega)

/-- The output invariant of `calculateReflections`: every emitted reflection
passed the visibility test, lies inside the canvas, has no immediate mirror
repeat in its chain, has depth equal to its chain length, has depth 1 or
depth at most the configured bound, and has all its proper ancestors in the
output as well. -/
theorem out_invariant (s : Scene) :
    ∀ r ∈ calculateReflections s,
      isReflectionVisible s r = true ∧
      ¬(r.x - r.radius < 0 ∨ r.x + r.radius > s.width ∨
        r.y - r.radius < 0 ∨ r.y + r.radius > s.height) ∧
      List.Chain' Ne (Refl.chainMirrors r) ∧
      r.ancestors.length + 1 = r.depth ∧
      1 ≤ r.depth ∧ (r.depth = 1 ∨ r.depth ≤ s.maxRefl) ∧
      (∀ a ∈ (Refl.chain r).tail, a ∈ calculateReflections s) := by
  intro r hr
  rcases mem_calculateReflections.mp hr with h | ⟨r0, hr0, j, hj, hje, hrc⟩
  · obtain ⟨heq, hanc, hdepth, hsm, hnd, hvis, hbd⟩ :=
      firstOrderImage_spec (mem_firstOrderList.mp h).choose_spec.2
    refine ⟨hvis, hbd, ?_, ?_, ?_, Or.inl hdepth, ?_⟩
    · rw [Refl.chainMirrors, Refl.chain, hanc]
      simp [chainAux]
    · rw [hanc, hdepth]
      rfl
    · rw [hdepth]
    · intro a ha
      have htl : (Refl.chain r).tail = [] := by
        rw [Refl.chain, hanc]
        rfl
      rw [htl] at ha
      exact absurd ha (List.not_mem_nil a)
  · obtain ⟨j0, hj0, hfo⟩ := mem_firstOrderList.mp hr0
    obtain ⟨heq0, hanc0, hdepth0, hsm0, -, -, -⟩ := firstOrderImage_spec hfo
    have hch0 : List.Chain' Ne (Refl.chainMirrors r0) := by
      rw [Refl.chainMirrors, Refl.chain, hanc0]
      simp [chainAux]
    have h30 : r0.ancestors.length + 2 = 2 := by rw [hanc0]; rfl
    obtain ⟨⟨h2le, hle⟩, hvis, hbd, hch, hlen, hanc⟩ :=
      calcHigher_invariant s (s.maxRefl + 1) j r0 r0.radius 2 hje hch0 h30 r hrc
    refine ⟨hvis, hbd, hch, hlen, by omega, Or.inr hle, ?_⟩
    intro a ha
    rcases hanc a ha with hin | hin
    · have hc0 : Refl.chain r0 = [r0] := by
        rw [Refl.chain, hanc0]
        rfl
      rw [hc0] at hin
      rcases List.mem_cons.mp hin with rfl | hin2
      · exact mem_calculateReflections.mpr (Or.inl hr0)
      · exact absurd hin2 (List.not_mem_nil a)
    · exact mem_calculateReflections.mpr (Or.inr ⟨r0, hr0, j, hj, hje, hin⟩)

/-- C4: a mirror produces no image of any source whose signed distance along
the stored normal is at most zero (`normalDistance <= 0` rejects, at every
recursion level), and in particular a single-mirror scene with the ball on
the non-reflective side produces an empty output at any depth. -/
theorem noReflectionWrongSide :
    (∀ (s : Scene) (fuel mIdx : Nat) (obj : Refl) (rad : ℚ) (depth : Nat),
      normalDist (s.mirrorAt mIdx) obj.x obj.y ≤ 0 →
      calcHigher s fuel mIdx obj rad depth = []) ∧
    (∀ (s : Scene) (j : Nat),
      normalDist (s.mirrorAt j) s.ballX s.ballY ≤ 0 →
      firstOrderImage s j = none) ∧
    ∀ (s : Scene) (m : Mirror), s.mirrors = [m] →
      normalDist m s.ballX s.ballY ≤ 0 → calculateReflections s = [] := by
  refine ⟨?_, ?_, ?_⟩
  · intro s fuel mIdx obj rad depth h
    cases fuel with
    | zero => rfl
    | succ f =>
      simp only [calcHigher]
      split_ifs <;> rfl
  · intro s j h
    simp only [firstOrderImage]
    rw [if_pos h]
  · intro s m hm h
    have hlen : s.mirrors.length = 1 := by rw [hm]; rfl
    have hm0 : s.mirrorAt 0 = m := by rw [Scene.mirrorAt, hm]; rfl
    have h0 : firstOrderImage s 0 = none := by
      simp only [firstOrderImage, hm0]
      rw [if_pos h]
    have hfo : firstOrderList s = [] := by
      have hr1 : List.range 1 = [0] := rfl
      rw [firstOrderList, hlen, hr1]
      simp [h0]
    simp only [calculateReflections, hfo]
    rfl

/-- Witness for C4: in `wrongSideScene` the ball sits on the non-reflective
side of the only mirror and the whole output is empty; `calcHigher` likewise
produces nothing from a wrong-side source. -/
theorem noReflectionWrongSide_witness :
    normalDist mirrorC 600 200 ≤ 0 ∧ calculateReflections wrongSideScene = [] ∧
    firstOrderImage wrongSideScene 0 = none ∧
    calcHigher wrongSideScene 5 0 wrongSideObj 25 2 = [] :=
  ⟨by decide, noReflectionWrongSide.2.2 wrongSideScene mirrorC rfl (by decide),
   noReflectionWrongSide.2.1 wrongSideScene 0 (by decide),
   noReflectionWrongSide.1 wrongSideScene 5 0 wrongSideObj 25 2 (by decide)⟩

/-- C5: with configured maximum depth at least 1, every output reflection
has depth between 1 and the configured maximum. -/
theorem depthBound (s : Scene) (hN : 1 ≤ s.maxRefl) :
    ∀ r ∈ calculateReflections s, 1 ≤ r.depth ∧ r.depth ≤ s.maxRefl := by
  intro r hr
  obtain ⟨-, -, -, -, h1, h2, -⟩ := out_invariant s r hr
  rcases h2 with h2 | h2
  · omega
  · omega

/-- Witness for C5: the depth-3 image of the ping-pong scene. -/
theorem depthBound_witness :
    1 ≤ reflBAB.depth ∧ reflBAB.depth ≤ pingScene.maxRefl :=
  depthBound pingScene (by decide) reflBAB (by decide)

/-- C6: an image whose bounding circle is not entirely inside the scene
bounds is invisible, and no such image ever appears in the generator's
output. -/
theorem canvasContainment :
    (∀ (s : Scene) (r : Refl),
      (r.x - r.radius < 0 ∨ r.x + r.radius > s.width ∨
        r.y - r.radius < 0 ∨ r.y + r.radius > s.height) →
      isReflectionVisible s r = false) ∧
    ∀ (s : Scene), ∀ r ∈ calculateReflections s,
      ¬(r.x - r.radius < 0 ∨ r.x + r.radius > s.width ∨
        r.y - r.radius < 0 ∨ r.y + r.radius > s.height) := by
  constructor
  · intro s r h
    simp only [isReflectionVisible]
    rw [if_pos h]
  · intro s r hr
    exact (out_invariant s r hr).2.1

/-- Witness for C6: an image sticking out of the left edge is invisible,
and the one output image of `sceneA` is fully inside the canvas. -/
theorem canvasContainment_witness :
    isReflectionVisible sceneA oobRefl = false ∧
    ¬(reflA1.x - reflA1.radius < 0 ∨ reflA1.x + reflA1.radius > sceneA.width ∨
      reflA1.y - reflA1.radius < 0 ∨ reflA1.y + reflA1.radius > sceneA.height) :=
  ⟨canvasContainment.1 sceneA oobRefl (by decide),
   canvasContainment.2 sceneA reflA1 (by decide)⟩

/-- C10: visibility gating happens at generation time — every reflection in
the output buffer passed the visibility test against the (immutable) scene,
and every proper ancestor of an output reflection is itself in the output
(and hence also passed); a candidate that failed can therefore appear
nowhere in any output chain. -/
theorem generationGating (s : Scene) :
    ∀ r ∈ calculateReflections s,
      isReflectionVisible s r = true ∧
      ∀ a ∈ (Refl.chain r).tail,
        a ∈ calculateReflections s ∧ isReflectionVisible s a = true := by
  intro r hr
  obtain ⟨hvis, -, -, -, -, -, hcl⟩ := out_invariant s r hr
  refine ⟨hvis, fun a ha => ?_⟩
  have haout := hcl a ha
  exact ⟨haout, (out_invariant s a haout).1⟩

/-- Witness for C10 at the deepest ping-pong image. -/
theorem generationGating_witness :
    isReflectionVisible pingScene reflBAB = true ∧
    ∀ a ∈ (Refl.chain reflBAB).tail,
      a ∈ calculateReflections pingScene ∧
      isReflectionVisible pingScene a = true :=
  generationGating pingScene reflBAB (by decide)

/-- Counterexample for C1: in the two-facing-mirror scene the output
contains a depth-3 image whose chain uses mirror 1, then mirror 0, then
mirror 1 again — a mirror repeats (non-consecutively) within one
depth-chain. -/
theorem mirrorRepeatsInChain_cex :
    reflBAB ∈ calculateReflections pingScene ∧
    Refl.chainMirrors reflBAB = [1, 0, 1] ∧
    ¬ (Refl.chainMirrors reflBAB).Nodup := by
  refine ⟨by decide, by decide, by decide⟩

/-- C1 (amended): consecutive mirrors in any output depth-chain differ — a
reflection's `sourceMirror` never equals its immediate parent's
`sourceMirror` (no immediate self-bounce) — but a mirror may be reused
non-consecutively deeper in the chain. -/
theorem noImmediateMirrorRepeat (s : Scene) :
    ∀ r ∈ calculateReflections s,
      List.Chain' Ne (Refl.chainMirrors r) ∧
      ∀ p, r.parent = some p → p.sourceMirror ≠ r.sourceMirror := by
  intro r hr
  have hch := (out_invariant s r hr).2.2.1
  refine ⟨hch, fun p hp => ?_⟩
  cases hanc : r.ancestors with
  | nil =>
    rw [Refl.parent, hanc] at hp
    exact absurd hp (by simp)
  | cons a t =>
    rw [Refl.parent, hanc] at hp
    simp only [Option.some.injEq] at hp
    subst hp
    have hform : Refl.chainMirrors r =
        r.sourceMirror :: a.sourceMirror ::
          (chainAux t).map (fun c => c.sourceMirror) := by
      rw [Refl.chainMirrors, Refl.chain, hanc]
      rfl
    rw [hform] at hch
    exact Ne.symm (List.chain'_cons.mp hch).1

/-- Witness for the amended C1 at the deepest ping-pong image. -/
theorem noImmediateMirrorRepeat_witness :
    List.Chain' Ne (Refl.chainMirrors reflBAB) ∧
    ∀ p, reflBAB.parent = some p → p.sourceMirror ≠ reflBAB.sourceMirror :=
  noImmediateMirrorRepeat pingScene reflBAB (by decide)

/-- C3: the visibility test returns `false` whenever the eye-to-image
segment misses the generating mirror's centerline, or the eye-to-hit
direction dotted with the stored normal is nonnegative, or the eye-to-hit
distance is not strictly smaller than the eye-to-image distance (distances
compared by their squares, see module header). -/
theorem visibilityCoreRejections (s : Scene) (r : Refl)
    (h :
      lineIntersection s.eyeX s.eyeY r.x r.y
          (s.mirrorAt r.sourceMirror).x1 (s.mirrorAt r.sourceMirror).y1
          (s.mirrorAt r.sourceMirror).x2 (s.mirrorAt r.sourceMirror).y2 = none ∨
      (∃ hit : Pt,
        lineIntersection s.eyeX s.eyeY r.x r.y
          (s.mirrorAt r.sourceMirror).x1 (s.mirrorAt r.sourceMirror).y1
          (s.mirrorAt r.sourceMirror).x2 (s.mirrorAt r.sourceMirror).y2 = some hit ∧
        0 ≤ dotProduct (s.mirrorAt r.sourceMirror).nx (s.mirrorAt r.sourceMirror).ny
          (hit.x - s.eyeX) (hit.y - s.eyeY)) ∨
      (∃ hit : Pt,
        lineIntersection s.eyeX s.eyeY r.x r.y
          (s.mirrorAt r.sourceMirror).x1 (s.mirrorAt r.sourceMirror).y1
          (s.mirrorAt r.sourceMirror).x2 (s.mirrorAt r.sourceMirror).y2 = some hit ∧
        distSq s.eyeX s.eyeY r.x r.y ≤ distSq s.eyeX s.eyeY hit.x hit.y)) :
    isReflectionVisible s r = false := by
  simp only [isReflectionVisible]
  by_cases hbnd : r.x - r.radius < 0 ∨ r.x + r.radius > s.width ∨
      r.y - r.radius < 0 ∨ r.y + r.radius > s.height
  · rw [if_pos hbnd]
  · rw [if_neg hbnd]
    cases hli : lineIntersection s.eyeX s.eyeY r.x r.y
        (s.mirrorAt r.sourceMirror).x1 (s.mirrorAt r.sourceMirror).y1
        (s.mirrorAt r.sourceMirror).x2 (s.mirrorAt r.sourceMirror).y2 with
    | none => simp [hli]
    | some hit =>
      simp only [hli]
      rcases h with h1 | ⟨hit2, hh, hdot⟩ | ⟨hit2, hh, hdist⟩
      · rw [hli] at h1
        exact absurd h1 (by simp)
      · rw [hli] at hh
        injection hh with hh
        subst hh
        split_ifs <;>
          first
          | rfl
          | exact absurd (by assumption :
              dotProduct (s.mirrorAt r.sourceMirror).nx (s.mirrorAt r.sourceMirror).ny
                (hit.x - s.eyeX) (hit.y - s.eyeY) < 0) (not_lt.mpr hdot)
      · rw [hli] at hh
        injection hh with hh
        subst hh
        split_ifs <;>
          first
          | rfl
          | exact absurd (by assumption :
              distSq s.eyeX s.eyeY hit.x hit.y < distSq s.eyeX s.eyeY r.x r.y)
              (not_lt.mpr hdist)

/-- Witness for C3 in `sceneA`: the sight line from the eye to `strayRefl`
misses the mirror, so the candidate is invisible. -/
theorem visibilityCoreRejections_witness :
    isReflectionVisible sceneA strayRefl = false :=
  visibilityCoreRejections sceneA strayRefl (Or.inl (by decide))

theorem traceGo_length (s : Scene) :
    ∀ (chain : List Refl) (rpath : List Pt),
      traceAllHit s (rpath.headD ⟨s.eyeX, s.eyeY⟩) chain = true →
      (traceGo s rpath chain).length =
        rpath.length + 2 * chain.length + (if chain.isEmpty then 0 else 1) := by
  intro chain
  induction chain with
  | nil =>
    intro rpath _
    simp [traceGo]
  | cons c rest ih =>
    intro rpath hh
    simp only [traceAllHit] at hh
    cases hli : lineIntersection (rpath.headD ⟨s.eyeX, s.eyeY⟩).x
        (rpath.headD ⟨s.eyeX, s.eyeY⟩).y c.x c.y
        (s.mirrorAt c.sourceMirror).x1 (s.mirrorAt c.sourceMirror).y1
        (s.mirrorAt c.sourceMirror).x2 (s.mirrorAt c.sourceMirror).y2 with
    | none =>
      rw [hli] at hh
      simp at hh
    | some hit =>
      rw [hli] at hh
      simp only [traceGo, hli]
      cases rest with
      | nil => simp [traceGo]
      | cons c2 rest2 =>
        have h2 := ih ((⟨c.x, c.y⟩ : Pt) :: hit :: rpath) hh
        simp only [List.isEmpty_cons, Bool.false_eq_true, if_false] at h2 ⊢
        rw [h2]
        simp only [List.length_cons]
        omega

theorem out_chainLength (s : Scene) :
    ∀ r ∈ calculateReflections s, r.ancestors.length + 1 = r.depth :=
  fun r hr => (out_invariant s r hr).2.2.2.1

/-- C2 (amended): for an output reflection of depth `d` whose intermediate
hit-point computations all succeed, the traced polyline has exactly
`2*d + 2` points — the tracer pushes, for every chain element, both the
mirror hit point and the virtual image's own position, between the eye and
the ball. -/
theorem tracePathLength (s : Scene) (r : Refl)
    (hr : r ∈ calculateReflections s)
    (hh : traceAllHit s ⟨s.eyeX, s.eyeY⟩ (Refl.chain r) = true) :
    (traceSingleRayPath s r).length = 2 * r.depth + 2 := by
  have hlen := out_chainLength s r hr
  rw [traceSingleRayPath, List.length_reverse]
  have hgo := traceGo_length s (Refl.chain r) [⟨s.eyeX, s.eyeY⟩] hh
  rw [hgo]
  have hclen : (Refl.chain r).length = r.depth := by
    rw [Refl.chain]
    simp only [List.length_cons, chainAux_length]
    omega
  have hne : (Refl.chain r).isEmpty = false := rfl
  rw [hclen, hne]
  simp
  omega

/-- Counterexample for C2: the accepted depth-1 image of `sceneA` — with
every intermediate hit-point computation succeeding — traces to a polyline
of 4 points (eye, mirror hit, virtual image position, ball), not
`d + 2 = 3`. -/
theorem tracePathLength_cex :
    reflA1 ∈ calculateReflections sceneA ∧ reflA1.depth = 1 ∧
    traceAllHit sceneA ⟨sceneA.eyeX, sceneA.eyeY⟩ (Refl.chain reflA1) = true ∧
    (traceSingleRayPath sceneA reflA1).length = 4 ∧
    (traceSingleRayPath sceneA reflA1).length ≠ reflA1.depth + 2 := by
  refine ⟨by decide, by decide, by decide, by decide, by decide⟩

/-- Witness for the amended C2 at the depth-1 image of `sceneA`. -/
theorem tracePathLength_witness :
    (traceSingleRayPath sceneA reflA1).length = 2 * reflA1.depth + 2 :=
  tracePathLength sceneA reflA1 (by decide) (by decide)

/-- Reflecting across a mirror line with a unit stored normal is an
involution: the point-reflection formula applied twice is the identity. -/
theorem reflectPointAcrossLine_roundTrip (m : Mirror)
    (hn : m.nx ^ 2 + m.ny ^ 2 = 1) (px py : ℚ) :
    reflectPointAcrossLine m (reflectPointAcrossLine m px py).x
      (reflectPointAcrossLine m px py).y = ⟨px, py⟩ := by
  simp only [reflectPointAcrossLine, normalDist, dotProduct, Pt.mk.injEq]
  constructor
  · linear_combination
      (4 * ((px - m.x1) * m.nx + (py - m.y1) * m.ny) * m.nx) * hn
  · linear_combination
      (4 * ((px - m.x1) * m.nx + (py - m.y1) * m.ny) * m.ny) * hn

/-- C7: in a single-mirror scene with a unit stored normal, reflecting any
generated image's position back across the same mirror line reproduces the
ball position exactly. -/
theorem singleMirrorRoundTrip (s : Scene) (m : Mirror) (hm : s.mirrors = [m])
    (hn : m.nx ^ 2 + m.ny ^ 2 = 1) :
    ∀ r ∈ calculateReflections s,
      reflectPointAcrossLine m r.x r.y = ⟨s.ballX, s.ballY⟩ := by
  intro r hr
  have hm0 : s.mirrorAt 0 = m := by rw [Scene.mirrorAt, hm]; rfl
  have hlen : s.mirrors.length = 1 := by rw [hm]; rfl
  rcases mem_calculateReflections.mp hr with h | ⟨r0, hr0, j, hj, hje, hrc⟩
  · obtain ⟨j0, hj0, hfo⟩ := mem_firstOrderList.mp h
    rw [hlen] at hj0
    have hj00 : j0 = 0 := by omega
    subst hj00
    obtain ⟨heq, -, -, -, -, -, -⟩ := firstOrderImage_spec hfo
    rw [heq]
    simp only [firstRefl, hm0, Refl.x, Refl.y, childNode]
    exact reflectPointAcrossLine_roundTrip m hn s.ballX s.ballY
  · obtain ⟨j0, hj0, hfo⟩ := mem_firstOrderList.mp hr0
    obtain ⟨-, -, -, hsm0, -, -, -⟩ := firstOrderImage_spec hfo
    rw [hlen] at hj hj0
    exact absurd (show j = r0.sourceMirror by omega) hje

/-- Witness for C7 at the unique output image of `sceneA`. -/
theorem singleMirrorRoundTrip_witness :
    reflectPointAcrossLine mirrorC reflA1.x reflA1.y
      = ⟨sceneA.ballX, sceneA.ballY⟩ :=
  singleMirrorRoundTrip sceneA mirrorC rfl (by decide) reflA1 (by decide)

end LightDetective

